import Mathlib

/-!
Shallow embedding of the Cortex-M0 debug target (probe/src/target/m0.rs).

Machine words are modelled as Nat; every 32-bit register value built by the
code stays below 2 ^ 32 by construction.  The memory interface (the MI trait
with read32 and write32) is modelled as a response script together with a log
of the operations issued: each call consumes the next scripted response and
appends the issued operation to the log.  Fallible operations return an
Except value paired with the final interface state.
-/

/-- Bitfield-crate clear: zero out bits lo .. lo+w-1 of v, keep the rest. -/
def clearBits (lo w v : Nat) : Nat :=
  ((v >>> (lo + w)) <<< (lo + w)) ||| v % 2 ^ lo

/-- Bitfield-crate setter: store the low w bits of x into bits lo .. lo+w-1 of v. -/
def setBits (lo w x v : Nat) : Nat :=
  clearBits lo w v ||| ((x % 2 ^ w) <<< lo)

def Dhcsr.ADDRESS : Nat := 0xE000EDF0

/-- DHCSR bit 16, register-ready status flag. -/
def Dhcsr.s_regrdy (v : Nat) : Bool := v.testBit 16

/-- DHCSR bit 17, halted status flag. -/
def Dhcsr.s_halt (v : Nat) : Bool := v.testBit 17

def Dhcsr.set_c_maskints (v : Nat) (b : Bool) : Nat := setBits 3 1 (if b then 1 else 0) v

def Dhcsr.set_c_step (v : Nat) (b : Bool) : Nat := setBits 2 1 (if b then 1 else 0) v

def Dhcsr.set_c_halt (v : Nat) (b : Bool) : Nat := setBits 1 1 (if b then 1 else 0) v

def Dhcsr.set_c_debugen (v : Nat) (b : Bool) : Nat := setBits 0 1 (if b then 1 else 0) v

/-- OR the debug key 0xA05F into bits 31:16, enabling writes to bits 15:0. -/
def Dhcsr.enable_write (v : Nat) : Nat := v ||| (0xA05F <<< 16)

def Dcrsr.ADDRESS : Nat := 0xE000EDF4

def Dcrsr.set_regwnr (v : Nat) (b : Bool) : Nat := setBits 16 1 (if b then 1 else 0) v

def Dcrsr.set_regsel (v x : Nat) : Nat := setBits 0 5 x v

def Dcrdr.ADDRESS : Nat := 0xE000EDF8

def BpCtrl.ADDRESS : Nat := 0xE0002000

/-- BP_CTRL bits 7:4, the number of breakpoint comparators. -/
def BpCtrl.numcode (v : Nat) : Nat := (v >>> 4) % 2 ^ 4

def BpCtrl.set_key (v : Nat) (b : Bool) : Nat := setBits 1 1 (if b then 1 else 0) v

def BpCtrl.set_enable (v : Nat) (b : Bool) : Nat := setBits 0 1 (if b then 1 else 0) v

def BpCompx.ADDRESS : Nat := 0xE0002008

def BpCompx.set_bp_match (v x : Nat) : Nat := setBits 30 2 x v

def BpCompx.set_comp (v x : Nat) : Nat := setBits 2 27 x v

def BpCompx.set_enable (v : Nat) (b : Bool) : Nat := setBits 0 1 (if b then 1 else 0) v

def R0 : Nat := 0b00000
def R1 : Nat := 0b00001
def R2 : Nat := 0b00010
def R3 : Nat := 0b00011
def R4 : Nat := 0b00100
def R9 : Nat := 0b01001
def SP : Nat := 0b01101
def LR : Nat := 0b01110
def PC : Nat := 0b01111

/-- One scripted response of the memory interface: a successful 32-bit value
(ignored by writes) or a transport-level error code. -/
inductive MIResp where
  | ok (v : Nat)
  | err (code : Nat)
deriving DecidableEq

def MIResp.isOk : MIResp → Bool
  | .ok _ => true
  | .err _ => false

/-- An operation issued to the memory interface. -/
inductive MIOp where
  | read32 (addr : Nat)
  | write32 (addr : Nat) (value : Nat)
deriving DecidableEq

/-- Memory-interface state: the response script (indexed by call number),
the number of calls consumed so far, and the log of issued operations. -/
structure MIState where
  resp : Nat → MIResp
  count : Nat
  log : List MIOp

def mi_read32 (addr : Nat) (s : MIState) : Except Nat Nat × MIState :=
  match s.resp s.count with
  | .ok v => (.ok v, { s with count := s.count + 1, log := s.log ++ [.read32 addr] })
  | .err c => (.error c, { s with count := s.count + 1, log := s.log ++ [.read32 addr] })

def mi_write32 (addr value : Nat) (s : MIState) : Except Nat Unit × MIState :=
  match s.resp s.count with
  | .ok _ => (.ok (), { s with count := s.count + 1, log := s.log ++ [.write32 addr value] })
  | .err c => (.error c, { s with count := s.count + 1, log := s.log ++ [.write32 addr value] })

/-- The error taxonomy of the debug core.  The memory constructor is the
transport failure case; the From conversion applied by the source when it
propagates a memory-interface error is modelled from the spec (section 7:
transport failures are wrapped and forwarded unchanged), so it keeps the
underlying error code intact. -/
inductive DebugProbeError where
  | timeout
  | memory (code : Nat)
deriving DecidableEq

/-- Bounded DHCSR poll loop shared by wait_for_core_register_transfer (p is
the register-ready bit) and wait_for_core_halted (p is the halted bit):
read DHCSR each iteration, return ok once p holds, propagate a transport
error at once, and return Timeout when the fuel runs out. -/
def waitDhcsrLoop (p : Nat → Bool) : Nat → MIState → Except DebugProbeError Unit × MIState
  | 0, s => (.error .timeout, s)
  | n + 1, s =>
    match mi_read32 Dhcsr.ADDRESS s with
    | (.error c, s1) => (.error (.memory c), s1)
    | (.ok v, s1) => if p v then (.ok (), s1) else waitDhcsrLoop p n s1

def wait_for_core_register_transfer (s : MIState) : Except DebugProbeError Unit × MIState :=
  waitDhcsrLoop Dhcsr.s_regrdy 100 s

def wait_for_core_halted (s : MIState) : Except DebugProbeError Unit × MIState :=
  waitDhcsrLoop Dhcsr.s_halt 100 s

/-- The DCRSR word built by read_core_reg: direction read, regsel from addr. -/
def dcrsrReadValue (addr : Nat) : Nat :=
  Dcrsr.set_regsel (Dcrsr.set_regwnr 0 false) addr

/-- The DCRSR word built by write_core_reg: direction write, regsel from addr. -/
def dcrsrWriteValue (addr : Nat) : Nat :=
  Dcrsr.set_regsel (Dcrsr.set_regwnr 0 true) addr

def read_core_reg (addr : Nat) (s : MIState) : Except DebugProbeError Nat × MIState :=
  match mi_write32 Dcrsr.ADDRESS (dcrsrReadValue addr) s with
  | (.error c, s1) => (.error (.memory c), s1)
  | (.ok _, s1) =>
    match wait_for_core_register_transfer s1 with
    | (.error e, s2) => (.error e, s2)
    | (.ok _, s2) =>
      match mi_read32 Dcrdr.ADDRESS s2 with
      | (.error c, s3) => (.error (.memory c), s3)
      | (.ok v, s3) => (.ok v, s3)

def write_core_reg (addr value : Nat) (s : MIState) : Except DebugProbeError Unit × MIState :=
  match mi_write32 Dcrsr.ADDRESS (dcrsrWriteValue addr) s with
  | (.error c, s1) => (.error (.memory c), s1)
  | (.ok _, s1) =>
    match wait_for_core_register_transfer s1 with
    | (.error e, s2) => (.error e, s2)
    | (.ok _, s2) =>
      match mi_write32 Dcrdr.ADDRESS value s2 with
      | (.error c, s3) => (.error (.memory c), s3)
      | (.ok _, s3) => wait_for_core_register_transfer s3

/-- The DHCSR word halt writes: c_halt, c_debugen, then enable_write. -/
def haltDhcsrValue : Nat :=
  Dhcsr.enable_write (Dhcsr.set_c_debugen (Dhcsr.set_c_halt 0 true) true)

/-- halt returns the program counter (the pc field of CpuInformation). -/
def halt (s : MIState) : Except DebugProbeError Nat × MIState :=
  match mi_write32 Dhcsr.ADDRESS haltDhcsrValue s with
  | (.error c, s1) => (.error (.memory c), s1)
  | (.ok _, s1) => read_core_reg PC s1

/-- The DHCSR word run writes: both control bits false, then enable_write. -/
def runDhcsrValue : Nat :=
  Dhcsr.enable_write (Dhcsr.set_c_debugen (Dhcsr.set_c_halt 0 false) false)

def run (s : MIState) : Except DebugProbeError Unit × MIState :=
  match mi_write32 Dhcsr.ADDRESS runDhcsrValue s with
  | (.error c, s1) => (.error (.memory c), s1)
  | (.ok _, s1) => (.ok (), s1)

/-- The DHCSR word step writes: c_step, no halt, c_debugen, c_maskints,
then enable_write. -/
def stepDhcsrValue : Nat :=
  Dhcsr.enable_write
    (Dhcsr.set_c_maskints
      (Dhcsr.set_c_debugen (Dhcsr.set_c_halt (Dhcsr.set_c_step 0 true) false) true) true)

/-- step returns the program counter (the pc field of CpuInformation). -/
def step (s : MIState) : Except DebugProbeError Nat × MIState :=
  match mi_write32 Dhcsr.ADDRESS stepDhcsrValue s with
  | (.error c, s1) => (.error (.memory c), s1)
  | (.ok _, s1) =>
    match wait_for_core_halted s1 with
    | (.error e, s2) => (.error e, s2)
    | (.ok _, s2) => read_core_reg PC s2

def get_available_breakpoint_units (s : MIState) : Except DebugProbeError Nat × MIState :=
  match mi_read32 BpCtrl.ADDRESS s with
  | (.error c, s1) => (.error (.memory c), s1)
  | (.ok result, s1) =>
    match wait_for_core_register_transfer s1 with
    | (.error e, s2) => (.error e, s2)
    | (.ok _, s2) => (.ok result, s2)

def enable_breakpoints (state : Bool) (s : MIState) : Except DebugProbeError Unit × MIState :=
  match mi_write32 BpCtrl.ADDRESS (BpCtrl.set_enable 0 state) s with
  | (.error c, s1) => (.error (.memory c), s1)
  | (.ok _, s1) => wait_for_core_halted s1

/-- The comparator word built by set_breakpoint: bp_match 0b11, comp from
the shifted address ORed with 0x00FFFFFF, enable set. -/
def bpCompValue (addr : Nat) : Nat :=
  BpCompx.set_enable (BpCompx.set_comp (BpCompx.set_bp_match 0 0b11) ((addr >>> 2) ||| 0x00FFFFFF)) true

def set_breakpoint (addr : Nat) (s : MIState) : Except DebugProbeError Unit × MIState :=
  match mi_write32 BpCtrl.ADDRESS (bpCompValue addr) s with
  | (.error c, s1) => (.error (.memory c), s1)
  | (.ok _, s1) => wait_for_core_halted s1

/-- Outcome of a Rust call that may diverge by panicking instead of
returning: unimplemented macro calls panic with the message given here. -/
inductive RustOutcome (α : Type) where
  | panicked (msg : String)
  | returned (a : α)
deriving DecidableEq

def enable_breakpoint (addr : Nat) (s : MIState) :
    RustOutcome (Except DebugProbeError Unit) × MIState :=
  (.panicked "not implemented", s)

def disable_breakpoint (addr : Nat) (s : MIState) :
    RustOutcome (Except DebugProbeError Unit) × MIState :=
  (.panicked "not implemented", s)

/-- The flash algorithm descriptor record (flash_writer FlashAlgorithm). -/
structure FlashAlgorithm where
  load_address : Nat
  instructions : List Nat
  pc_init : Option Nat
  pc_uninit : Option Nat
  pc_program_page : Nat
  pc_erase_sector : Nat
  pc_erase_all : Option Nat
  static_base : Nat
  begin_stack : Nat
  begin_data : Nat
  page_buffers : List Nat
  min_program_length : Nat
  analyzer_supported : Bool
  analyzer_address : Nat
deriving DecidableEq

def get_flash_algorithm : FlashAlgorithm :=
  { load_address := 0x20000000
    instructions := [
      0xE00ABE00, 0x062D780D, 0x24084068, 0xD3000040, 0x1E644058, 0x1C49D1FA, 0x2A001E52, 0x4770D1F2,
      0x03004601, 0x28200e00, 0x0940d302, 0xe0051d00, 0xd3022810, 0x1cc00900, 0x0880e000, 0xd50102c9,
      0x43082110, 0x48424770, 0x60414940, 0x60414941, 0x60012100, 0x22f068c1, 0x60c14311, 0x06806940,
      0x483ed406, 0x6001493c, 0x60412106, 0x6081493c, 0x47702000, 0x69014836, 0x43110542, 0x20006101,
      0xb5104770, 0x69014832, 0x43212404, 0x69016101, 0x431103a2, 0x49336101, 0xe0004a30, 0x68c36011,
      0xd4fb03db, 0x43a16901, 0x20006101, 0xb530bd10, 0xffb6f7ff, 0x68ca4926, 0x431a23f0, 0x240260ca,
      0x690a610c, 0x0e0006c0, 0x610a4302, 0x03e26908, 0x61084310, 0x4a214823, 0x6010e000, 0x03ed68cd,
      0x6908d4fb, 0x610843a0, 0x060068c8, 0xd0030f00, 0x431868c8, 0x200160c8, 0xb570bd30, 0x1cc94d14,
      0x68eb0889, 0x26f00089, 0x60eb4333, 0x612b2300, 0xe0174b15, 0x431c692c, 0x6814612c, 0x68ec6004,
      0xd4fc03e4, 0x0864692c, 0x612c0064, 0x062468ec, 0xd0040f24, 0x433068e8, 0x200160e8, 0x1d00bd70,
      0x1f091d12, 0xd1e52900, 0xbd702000, 0x45670123, 0x40023c00, 0xcdef89ab, 0x00005555, 0x40003000,
      0x00000fff, 0x0000aaaa, 0x00000201, 0x00000000]
    pc_init := some 0x20000047
    pc_uninit := some 0x20000075
    pc_program_page := 0x200000fb
    pc_erase_sector := 0x200000af
    pc_erase_all := some 0x20000083
    static_base := 0x20000000 + 0x00000020 + 0x0000014c
    begin_stack := 0x20000000 + 0x00000800
    begin_data := 0x20002000
    page_buffers := [0x20003000, 0x20004000]
    min_program_length := 2
    analyzer_supported := true
    analyzer_address := 0x20002000 }

/-- The log entries appended by k iterations of a DHCSR poll loop. -/
def pollLog (k : Nat) : List MIOp := List.replicate k (MIOp.read32 Dhcsr.ADDRESS)

/-- The state reached after k poll reads of DHCSR. -/
def pollAdv (k : Nat) (s : MIState) : MIState :=
  { s with count := s.count + k, log := s.log ++ pollLog k }

/-- The state after one write32 call: one response consumed, op logged. -/
def afterWrite (addr value : Nat) (s : MIState) : MIState :=
  { s with count := s.count + 1, log := s.log ++ [MIOp.write32 addr value] }

/-- The state after one read32 call: one response consumed, op logged. -/
def afterRead (addr : Nat) (s : MIState) : MIState :=
  { s with count := s.count + 1, log := s.log ++ [MIOp.read32 addr] }

/-- A scripted response that is a successful read on which p is still unset. -/
def respNotReady (p : Nat → Bool) : MIResp → Bool
  | .ok v => !p v
  | .err _ => false

/-- A scripted response that is a successful read on which p is set. -/
def respReady (p : Nat → Bool) : MIResp → Bool
  | .ok v => p v
  | .err _ => false

/-- A fresh memory-interface state driven by the given response script. -/
def scriptState (f : Nat → MIResp) : MIState := { resp := f, count := 0, log := [] }

/-- Script: select write ok, first poll ready, then the data write fails
with transport error 7. -/
def c1ScriptA : Nat → MIResp := fun i =>
  if i = 1 then .ok 0x10000 else if i = 2 then .err 7 else .ok 0

/-- Script: select write ok, first poll ready, data write ok, then the
register-ready bit never sets again. -/
def c1ScriptB : Nat → MIResp := fun i =>
  if i = 1 then .ok 0x10000 else .ok 0

/-- Script: select write ok, first poll ready, data write ok, second poll
ready. -/
def c1ScriptC : Nat → MIResp := fun i =>
  if i = 1 then .ok 0x10000 else if i = 3 then .ok 0x10000 else .ok 0

/-- Script: select write ok, poll ready at once, then the data register
reads 0xDEAD. -/
def c2Script : Nat → MIResp := fun i =>
  if i = 1 then .ok 0x10000 else .ok 0xDEAD

/-- Script: one not-ready read, then transport error 9. -/
def c10Script : Nat → MIResp := fun i =>
  if i = 0 then .ok 0 else .err 9

/-- Script for the breakpoint-count claim: the Breakpoint Control Register
reads 0x40 (comparator-count field = 4), and DHCSR polls are ready. -/
def c4Script : Nat → MIResp := fun i =>
  if i = 0 then .ok 0x40 else .ok 0x10000

/-- Script whose reads always report both ready bits set. -/
def okReadyScript : Nat → MIResp := fun _ => .ok 0x30000

theorem MIState.eq_of {s t : MIState} (hr : s.resp = t.resp) (hc : s.count = t.count)
    (hl : s.log = t.log) : s = t := by
  cases s; cases t; simp_all

@[simp] theorem pollAdv_resp (k : Nat) (s : MIState) : (pollAdv k s).resp = s.resp := rfl

@[simp] theorem pollAdv_count (k : Nat) (s : MIState) : (pollAdv k s).count = s.count + k := rfl

@[simp] theorem pollAdv_log (k : Nat) (s : MIState) : (pollAdv k s).log = s.log ++ pollLog k := rfl

theorem pollAdv_zero (s : MIState) : pollAdv 0 s = s := by
  apply MIState.eq_of <;> simp [pollAdv, pollLog]

theorem pollAdv_one_shift (k : Nat) (s : MIState) :
    pollAdv k (pollAdv 1 s) = pollAdv (k + 1) s := by
  apply MIState.eq_of
  · rfl
  · simp; omega
  · simp [pollLog, List.replicate_succ]

theorem mi_read32_ok {v : Nat} (addr : Nat) (s : MIState) (h : s.resp s.count = .ok v) :
    mi_read32 addr s = (.ok v, afterRead addr s) := by
  simp [mi_read32, afterRead, h]

theorem mi_read32_err {c : Nat} (addr : Nat) (s : MIState) (h : s.resp s.count = .err c) :
    mi_read32 addr s = (.error c, afterRead addr s) := by
  simp [mi_read32, afterRead, h]

theorem mi_write32_ok (addr value : Nat) (s : MIState) (h : (s.resp s.count).isOk = true) :
    mi_write32 addr value s = (.ok (), afterWrite addr value s) := by
  cases hr : s.resp s.count with
  | ok v => simp [mi_write32, afterWrite, hr]
  | err c => rw [hr] at h; simp [MIResp.isOk] at h

theorem mi_write32_err {c : Nat} (addr value : Nat) (s : MIState) (h : s.resp s.count = .err c) :
    mi_write32 addr value s = (.error c, afterWrite addr value s) := by
  simp [mi_write32, afterWrite, h]

@[simp] theorem afterWrite_resp (addr value : Nat) (s : MIState) :
    (afterWrite addr value s).resp = s.resp := rfl

@[simp] theorem afterWrite_count (addr value : Nat) (s : MIState) :
    (afterWrite addr value s).count = s.count + 1 := rfl

@[simp] theorem afterWrite_log (addr value : Nat) (s : MIState) :
    (afterWrite addr value s).log = s.log ++ [MIOp.write32 addr value] := rfl

@[simp] theorem afterRead_resp (addr : Nat) (s : MIState) :
    (afterRead addr s).resp = s.resp := rfl

@[simp] theorem afterRead_count (addr : Nat) (s : MIState) :
    (afterRead addr s).count = s.count + 1 := rfl

@[simp] theorem afterRead_log (addr : Nat) (s : MIState) :
    (afterRead addr s).log = s.log ++ [MIOp.read32 addr] := rfl

theorem read_dhcsr_state (s : MIState) :
    afterRead Dhcsr.ADDRESS s = pollAdv 1 s := by
  apply MIState.eq_of <;> simp [afterRead, pollAdv, pollLog]

theorem waitDhcsrLoop_ready (p : Nat → Bool) (k : Nat) :
    ∀ (n : Nat) (s : MIState), k < n →
    (∀ j, j < k → respNotReady p (s.resp (s.count + j)) = true) →
    respReady p (s.resp (s.count + k)) = true →
    waitDhcsrLoop p n s = (.ok (), pollAdv (k + 1) s) := by
  induction k with
  | zero =>
    intro n s hn _ hrdy
    obtain ⟨m, rfl⟩ : ∃ m, n = m + 1 := ⟨n - 1, by omega⟩
    rw [Nat.add_zero] at hrdy
    cases hr : s.resp s.count with
    | err c => rw [hr] at hrdy; simp [respReady] at hrdy
    | ok v =>
      rw [hr] at hrdy
      have hpv : p v = true := by simpa [respReady] using hrdy
      simp [waitDhcsrLoop, mi_read32_ok _ _ hr, hpv, read_dhcsr_state]
  | succ k ih =>
    intro n s hn hnot hrdy
    obtain ⟨m, rfl⟩ : ∃ m, n = m + 1 := ⟨n - 1, by omega⟩
    have h0 := hnot 0 (Nat.succ_pos k)
    rw [Nat.add_zero] at h0
    cases hr : s.resp s.count with
    | err c => rw [hr] at h0; simp [respNotReady] at h0
    | ok v =>
      rw [hr] at h0
      have hpv : p v = false := by simpa [respNotReady] using h0
      have hnot1 : ∀ j, j < k → respNotReady p ((pollAdv 1 s).resp ((pollAdv 1 s).count + j)) = true := by
        intro j hj
        have := hnot (j + 1) (by omega)
        rw [show s.count + (j + 1) = s.count + 1 + j from by omega] at this
        simpa using this
      have hrdy1 : respReady p ((pollAdv 1 s).resp ((pollAdv 1 s).count + k)) = true := by
        have := hrdy
        rw [show s.count + (k + 1) = s.count + 1 + k from by omega] at this
        simpa using this
      have ihapp := ih m (pollAdv 1 s) (by omega) hnot1 hrdy1
      simp [waitDhcsrLoop, mi_read32_ok _ _ hr, hpv, read_dhcsr_state, ihapp, pollAdv_one_shift]

theorem waitDhcsrLoop_timeout (p : Nat → Bool) (n : Nat) :
    ∀ s : MIState, (∀ j, j < n → respNotReady p (s.resp (s.count + j)) = true) →
    waitDhcsrLoop p n s = (.error .timeout, pollAdv n s) := by
  induction n with
  | zero => intro s _; simp [waitDhcsrLoop, pollAdv_zero]
  | succ m ih =>
    intro s hnot
    have h0 := hnot 0 (Nat.succ_pos m)
    rw [Nat.add_zero] at h0
    cases hr : s.resp s.count with
    | err c => rw [hr] at h0; simp [respNotReady] at h0
    | ok v =>
      rw [hr] at h0
      have hpv : p v = false := by simpa [respNotReady] using h0
      have hnot1 : ∀ j, j < m → respNotReady p ((pollAdv 1 s).resp ((pollAdv 1 s).count + j)) = true := by
        intro j hj
        have := hnot (j + 1) (by omega)
        rw [show s.count + (j + 1) = s.count + 1 + j from by omega] at this
        simpa using this
      have ihapp := ih (pollAdv 1 s) hnot1
      simp [waitDhcsrLoop, mi_read32_ok _ _ hr, hpv, read_dhcsr_state, ihapp, pollAdv_one_shift]

theorem waitDhcsrLoop_err (p : Nat → Bool) (k : Nat) :
    ∀ (n : Nat) (s : MIState) (c : Nat), k < n →
    (∀ j, j < k → respNotReady p (s.resp (s.count + j)) = true) →
    s.resp (s.count + k) = .err c →
    waitDhcsrLoop p n s = (.error (.memory c), pollAdv (k + 1) s) := by
  induction k with
  | zero =>
    intro n s c hn _ herr
    obtain ⟨m, rfl⟩ : ∃ m, n = m + 1 := ⟨n - 1, by omega⟩
    rw [Nat.add_zero] at herr
    simp [waitDhcsrLoop, mi_read32_err _ _ herr, read_dhcsr_state]
  | succ k ih =>
    intro n s c hn hnot herr
    obtain ⟨m, rfl⟩ : ∃ m, n = m + 1 := ⟨n - 1, by omega⟩
    have h0 := hnot 0 (Nat.succ_pos k)
    rw [Nat.add_zero] at h0
    cases hr : s.resp s.count with
    | err c0 => rw [hr] at h0; simp [respNotReady] at h0
    | ok v =>
      rw [hr] at h0
      have hpv : p v = false := by simpa [respNotReady] using h0
      have hnot1 : ∀ j, j < k → respNotReady p ((pollAdv 1 s).resp ((pollAdv 1 s).count + j)) = true := by
        intro j hj
        have := hnot (j + 1) (by omega)
        rw [show s.count + (j + 1) = s.count + 1 + j from by omega] at this
        simpa using this
      have herr1 : (pollAdv 1 s).resp ((pollAdv 1 s).count + k) = .err c := by
        have := herr
        rw [show s.count + (k + 1) = s.count + 1 + k from by omega] at this
        simpa using this
      have ihapp := ih m (pollAdv 1 s) c (by omega) hnot1 herr1
      simp [waitDhcsrLoop, mi_read32_ok _ _ hr, hpv, read_dhcsr_state, ihapp, pollAdv_one_shift]

theorem waitDhcsrLoop_cases (p : Nat → Bool) (n : Nat) :
    ∀ s : MIState,
      (∃ k, 1 ≤ k ∧ k ≤ n ∧ waitDhcsrLoop p n s = (.ok (), pollAdv k s)) ∨
      (∃ e k, k ≤ n ∧ waitDhcsrLoop p n s = (.error e, pollAdv k s)) := by
  induction n with
  | zero =>
    intro s
    exact Or.inr ⟨.timeout, 0, Nat.le_refl 0, by simp [waitDhcsrLoop, pollAdv_zero]⟩
  | succ m ih =>
    intro s
    cases hr : s.resp s.count with
    | err c =>
      refine Or.inr ⟨.memory c, 1, by omega, ?_⟩
      simp [waitDhcsrLoop, mi_read32_err _ _ hr, read_dhcsr_state]
    | ok v =>
      by_cases hp : p v = true
      · refine Or.inl ⟨1, Nat.le_refl 1, by omega, ?_⟩
        simp [waitDhcsrLoop, mi_read32_ok _ _ hr, hp, read_dhcsr_state]
      · have hpv : p v = false := by simpa using hp
        rcases ih (pollAdv 1 s) with ⟨k, hk1, hkm, heq⟩ | ⟨e, k, hkm, heq⟩
        · refine Or.inl ⟨k + 1, by omega, by omega, ?_⟩
          simp [waitDhcsrLoop, mi_read32_ok _ _ hr, hpv, read_dhcsr_state, heq, pollAdv_one_shift]
        · refine Or.inr ⟨e, k + 1, by omega, ?_⟩
          simp [waitDhcsrLoop, mi_read32_ok _ _ hr, hpv, read_dhcsr_state, heq, pollAdv_one_shift]

theorem shiftLeft_or_eq_add {b n : Nat} (a : Nat) (h : b < 2 ^ n) :
    (a <<< n) ||| b = 2 ^ n * a + b := by
  apply Nat.eq_of_testBit_eq
  intro i
  rw [Nat.testBit_or, Nat.testBit_shiftLeft]
  rcases Nat.lt_or_ge i n with hi | hi
  · have hge : decide (i ≥ n) = false := by simp; omega
    have hsplit : 2 ^ n * a + b = 2 ^ i * (2 ^ (n - i) * a) + b := by
      rw [← Nat.mul_assoc, ← Nat.pow_add, show i + (n - i) = n from by omega]
    have hm : 2 ^ (n - i) * a = 2 * (2 ^ (n - i - 1) * a) := by
      obtain ⟨j, hj⟩ : ∃ j, n - i = j + 1 := ⟨n - i - 1, by omega⟩
      rw [hj, Nat.add_sub_cancel, Nat.pow_succ', Nat.mul_assoc]
    have key : (2 ^ n * a + b).testBit i = b.testBit i := by
      rw [hsplit, Nat.testBit_to_div_mod, Nat.testBit_to_div_mod,
        Nat.mul_add_div (by positivity), hm, Nat.mul_add_mod]
    rw [key, hge]
    simp
  · have hge : decide (i ≥ n) = true := by simp; omega
    have hbi : b.testBit i = false :=
      Nat.testBit_lt_two_pow (Nat.lt_of_lt_of_le h (Nat.pow_le_pow_right (by omega) hi))
    have hdiv : (2 ^ n * a + b) / 2 ^ i = a / 2 ^ (i - n) := by
      rw [show (2:Nat) ^ i = 2 ^ n * 2 ^ (i - n) from by
            rw [← Nat.pow_add, show n + (i - n) = i from by omega],
        ← Nat.div_div_eq_div_mul, Nat.mul_add_div (by positivity),
        Nat.div_eq_of_lt h, Nat.add_zero]
    have key : (2 ^ n * a + b).testBit i = a.testBit (i - n) := by
      rw [Nat.testBit_to_div_mod, Nat.testBit_to_div_mod, hdiv]
    rw [key, hge, hbi]
    simp

theorem dcrsrReadValue_eq (addr : Nat) : dcrsrReadValue addr = addr % 32 := by
  have h1 : Dcrsr.set_regwnr 0 false = 0 := by decide
  rw [dcrsrReadValue, h1]
  unfold Dcrsr.set_regsel setBits clearBits
  simp [Nat.shiftLeft_zero]

theorem dcrsrWriteValue_eq (addr : Nat) : dcrsrWriteValue addr = 65536 + addr % 32 := by
  have h1 : Dcrsr.set_regwnr 0 true = 65536 := by decide
  rw [dcrsrWriteValue, h1]
  unfold Dcrsr.set_regsel setBits clearBits
  norm_num [Nat.shiftLeft_zero]
  have h2 : (65536 : Nat) >>> 5 <<< 5 = 1 <<< 16 := by decide
  rw [h2, shiftLeft_or_eq_add 1 (Nat.lt_of_lt_of_le (Nat.mod_lt addr (by norm_num)) (by norm_num))]
  norm_num

theorem haltDhcsrValue_eq : haltDhcsrValue = 0xA05F0003 := by decide

theorem runDhcsrValue_eq : runDhcsrValue = 0xA05F0000 := by decide

theorem stepDhcsrValue_eq : stepDhcsrValue = 0xA05F000D := by decide

theorem bpCompValue_eq (addr : Nat) :
    bpCompValue addr = 3 * 2 ^ 30 + (((addr >>> 2) ||| 0xFFFFFF) % 2 ^ 27) * 4 + 1 := by
  have h1 : BpCompx.set_bp_match 0 0b11 = 0xC0000000 := by decide
  have hz : ((addr >>> 2) ||| 0xFFFFFF) % 2 ^ 27 < 2 ^ 27 := Nat.mod_lt _ (by norm_num)
  have h2 : BpCompx.set_comp 0xC0000000 ((addr >>> 2) ||| 0xFFFFFF) =
      3 * 2 ^ 30 + (((addr >>> 2) ||| 0xFFFFFF) % 2 ^ 27) * 4 := by
    unfold BpCompx.set_comp setBits
    have hc : clearBits 2 27 0xC0000000 = 3 <<< 30 := by decide
    have hb : (((addr >>> 2) ||| 0xFFFFFF) % 2 ^ 27) <<< 2 < 2 ^ 30 := by
      rw [Nat.shiftLeft_eq]
      omega
    rw [hc, shiftLeft_or_eq_add 3 hb, Nat.shiftLeft_eq]
    omega
  have h3 : BpCompx.set_enable
      (3 * 2 ^ 30 + (((addr >>> 2) ||| 0xFFFFFF) % 2 ^ 27) * 4) true =
      3 * 2 ^ 30 + (((addr >>> 2) ||| 0xFFFFFF) % 2 ^ 27) * 4 + 1 := by
    set z := ((addr >>> 2) ||| 0xFFFFFF) % 2 ^ 27 with hzdef
    have hdiv2 : (3 * 2 ^ 30 + z * 4) >>> (0 + 1) = 3 * 2 ^ 29 + z * 2 := by
      rw [Nat.shiftRight_eq_div_pow]
      omega
    unfold BpCompx.set_enable setBits clearBits
    rw [hdiv2]
    norm_num [Nat.mod_one]
    rw [shiftLeft_or_eq_add _ (show (1:Nat) < 2 ^ 1 by norm_num)]
    omega
  rw [bpCompValue, h1, h2, h3]

theorem mi_write32_snd (addr value : Nat) (s : MIState) :
    (mi_write32 addr value s).2 = afterWrite addr value s := by
  unfold mi_write32 afterWrite
  cases s.resp s.count <;> rfl

theorem mi_read32_snd (addr : Nat) (s : MIState) :
    (mi_read32 addr s).2 = afterRead addr s := by
  unfold mi_read32 afterRead
  cases s.resp s.count <;> rfl

theorem waitDhcsrLoop_state_shape (p : Nat → Bool) (n : Nat) (s : MIState) :
    ∃ k, k ≤ n ∧ (waitDhcsrLoop p n s).2 = pollAdv k s := by
  rcases waitDhcsrLoop_cases p n s with ⟨k, _, hk, heq⟩ | ⟨e, k, hk, heq⟩ <;>
    exact ⟨k, hk, by rw [heq]⟩

theorem wait_transfer_state_shape (s : MIState) :
    ∃ k, k ≤ 100 ∧ (wait_for_core_register_transfer s).2 = pollAdv k s :=
  waitDhcsrLoop_state_shape Dhcsr.s_regrdy 100 s

theorem wait_halted_state_shape (s : MIState) :
    ∃ k, k ≤ 100 ∧ (wait_for_core_halted s).2 = pollAdv k s :=
  waitDhcsrLoop_state_shape Dhcsr.s_halt 100 s

theorem read_core_reg_log (addr : Nat) (s : MIState) :
    ∃ l, (read_core_reg addr s).2.log = s.log ++ l := by
  unfold read_core_reg
  rcases hw : mi_write32 Dcrsr.ADDRESS (dcrsrReadValue addr) s with ⟨r1, s1⟩
  have hs1 : s1 = afterWrite Dcrsr.ADDRESS (dcrsrReadValue addr) s := by
    have h := mi_write32_snd Dcrsr.ADDRESS (dcrsrReadValue addr) s
    rw [hw] at h
    exact h
  cases r1 with
  | error c =>
    refine ⟨[MIOp.write32 Dcrsr.ADDRESS (dcrsrReadValue addr)], ?_⟩
    show s1.log = _
    simp [hs1]
  | ok u =>
    dsimp only
    rcases hwt : wait_for_core_register_transfer s1 with ⟨r2, s2⟩
    obtain ⟨k, hk100, hk⟩ := wait_transfer_state_shape s1
    rw [hwt] at hk
    have hs2 : s2 = pollAdv k s1 := hk
    cases r2 with
    | error e =>
      refine ⟨[MIOp.write32 Dcrsr.ADDRESS (dcrsrReadValue addr)] ++ pollLog k, ?_⟩
      show s2.log = _
      simp [hs2, hs1]
    | ok u2 =>
      dsimp only
      rcases hrd : mi_read32 Dcrdr.ADDRESS s2 with ⟨r3, s3⟩
      have hs3 : s3 = afterRead Dcrdr.ADDRESS s2 := by
        have h := mi_read32_snd Dcrdr.ADDRESS s2
        rw [hrd] at h
        exact h
      cases r3 with
      | error c =>
        refine ⟨[MIOp.write32 Dcrsr.ADDRESS (dcrsrReadValue addr)] ++ pollLog k
          ++ [MIOp.read32 Dcrdr.ADDRESS], ?_⟩
        show s3.log = _
        simp [hs3, hs2, hs1]
      | ok v =>
        refine ⟨[MIOp.write32 Dcrsr.ADDRESS (dcrsrReadValue addr)] ++ pollLog k
          ++ [MIOp.read32 Dcrdr.ADDRESS], ?_⟩
        show s3.log = _
        simp [hs3, hs2, hs1]


/-- C1: write_core_reg issues one DCRSR select write (direction write, index
from addr), a register-ready poll, one DCRDR data write, and a second
register-ready poll, in that order; a failing DCRDR write short-circuits
before the second poll; and a successful DCRDR write whose second poll
exhausts its 100-iteration budget returns Timeout, never success. -/
theorem write_core_reg_protocol (addr value : Nat) (s : MIState) :
    ((write_core_reg addr value s).1 = .ok () →
      ∃ k₁ k₂, 1 ≤ k₁ ∧ k₁ ≤ 100 ∧ 1 ≤ k₂ ∧ k₂ ≤ 100 ∧
        (write_core_reg addr value s).2.log =
          s.log ++ [MIOp.write32 Dcrsr.ADDRESS (dcrsrWriteValue addr)] ++ pollLog k₁
            ++ [MIOp.write32 Dcrdr.ADDRESS value] ++ pollLog k₂) ∧
    (∀ k c, k < 100 → (s.resp s.count).isOk = true →
      (∀ j, j < k → respNotReady Dhcsr.s_regrdy (s.resp (s.count + 1 + j)) = true) →
      respReady Dhcsr.s_regrdy (s.resp (s.count + 1 + k)) = true →
      s.resp (s.count + k + 2) = .err c →
      write_core_reg addr value s =
        (.error (.memory c),
          { s with count := s.count + k + 3,
                   log := s.log ++ [MIOp.write32 Dcrsr.ADDRESS (dcrsrWriteValue addr)]
                     ++ pollLog (k + 1) ++ [MIOp.write32 Dcrdr.ADDRESS value] })) ∧
    (∀ k, k < 100 → (s.resp s.count).isOk = true →
      (∀ j, j < k → respNotReady Dhcsr.s_regrdy (s.resp (s.count + 1 + j)) = true) →
      respReady Dhcsr.s_regrdy (s.resp (s.count + 1 + k)) = true →
      (s.resp (s.count + k + 2)).isOk = true →
      (∀ j, j < 100 → respNotReady Dhcsr.s_regrdy (s.resp (s.count + k + 3 + j)) = true) →
      write_core_reg addr value s =
        (.error .timeout,
          { s with count := s.count + k + 103,
                   log := s.log ++ [MIOp.write32 Dcrsr.ADDRESS (dcrsrWriteValue addr)]
                     ++ pollLog (k + 1) ++ [MIOp.write32 Dcrdr.ADDRESS value] ++ pollLog 100 })) := by
  refine ⟨?_, ?_, ?_⟩
  · intro hok1
    cases hr : s.resp s.count with
    | err c =>
      have hweq := mi_write32_err Dcrsr.ADDRESS (dcrsrWriteValue addr) s hr
      have hcontra : write_core_reg addr value s =
          (.error (.memory c), afterWrite Dcrsr.ADDRESS (dcrsrWriteValue addr) s) := by
        unfold write_core_reg
        rw [hweq]
      rw [hcontra] at hok1
      simp at hok1
    | ok v =>
      have hw := mi_write32_ok Dcrsr.ADDRESS (dcrsrWriteValue addr) s (by rw [hr]; rfl)
      rcases waitDhcsrLoop_cases Dhcsr.s_regrdy 100
          (afterWrite Dcrsr.ADDRESS (dcrsrWriteValue addr) s) with
        ⟨k₁, hk11, hk12, hweq1⟩ | ⟨e, k, _, hweq1⟩
      · cases hr2 : (pollAdv k₁ (afterWrite Dcrsr.ADDRESS (dcrsrWriteValue addr) s)).resp
            ((pollAdv k₁ (afterWrite Dcrsr.ADDRESS (dcrsrWriteValue addr) s)).count) with
        | err c =>
          have hdw := mi_write32_err Dcrdr.ADDRESS value _ hr2
          have hcontra : (write_core_reg addr value s).1 = .error (.memory c) := by
            unfold write_core_reg wait_for_core_register_transfer
            rw [hw]
            dsimp only
            rw [hweq1]
            dsimp only
            rw [hdw]
          rw [hok1] at hcontra
          simp at hcontra
        | ok u =>
          have hdw := mi_write32_ok Dcrdr.ADDRESS value _ (by rw [hr2]; rfl)
          rcases waitDhcsrLoop_cases Dhcsr.s_regrdy 100
              (afterWrite Dcrdr.ADDRESS value
                (pollAdv k₁ (afterWrite Dcrsr.ADDRESS (dcrsrWriteValue addr) s))) with
            ⟨k₂, hk21, hk22, hweq2⟩ | ⟨e, k, _, hweq2⟩
          · refine ⟨k₁, k₂, hk11, hk12, hk21, hk22, ?_⟩
            have hfull : write_core_reg addr value s =
                (.ok (), pollAdv k₂ (afterWrite Dcrdr.ADDRESS value
                  (pollAdv k₁ (afterWrite Dcrsr.ADDRESS (dcrsrWriteValue addr) s)))) := by
              unfold write_core_reg wait_for_core_register_transfer
              rw [hw]
              dsimp only
              rw [hweq1]
              dsimp only
              rw [hdw]
              dsimp only
              rw [hweq2]
            rw [hfull]
            simp [List.append_assoc]
          · have hcontra : (write_core_reg addr value s).1 = .error e := by
              unfold write_core_reg wait_for_core_register_transfer
              rw [hw]
              dsimp only
              rw [hweq1]
              dsimp only
              rw [hdw]
              dsimp only
              rw [hweq2]
            rw [hok1] at hcontra
            simp at hcontra
      · have hcontra : (write_core_reg addr value s).1 = .error e := by
          unfold write_core_reg wait_for_core_register_transfer
          rw [hw]
          dsimp only
          rw [hweq1]
        rw [hok1] at hcontra
        simp at hcontra
  · intro k c hk hok hnot hrdy herr
    have hw := mi_write32_ok Dcrsr.ADDRESS (dcrsrWriteValue addr) s hok
    have hwait := waitDhcsrLoop_ready Dhcsr.s_regrdy k 100
      (afterWrite Dcrsr.ADDRESS (dcrsrWriteValue addr) s) hk hnot hrdy
    have herr2 : (pollAdv (k + 1) (afterWrite Dcrsr.ADDRESS (dcrsrWriteValue addr) s)).resp
        ((pollAdv (k + 1) (afterWrite Dcrsr.ADDRESS (dcrsrWriteValue addr) s)).count) = .err c := by
      show s.resp (s.count + 1 + (k + 1)) = .err c
      rw [show s.count + 1 + (k + 1) = s.count + k + 2 from by omega]
      exact herr
    have hdw := mi_write32_err Dcrdr.ADDRESS value _ herr2
    have hfull : write_core_reg addr value s =
        (.error (.memory c), afterWrite Dcrdr.ADDRESS value
          (pollAdv (k + 1) (afterWrite Dcrsr.ADDRESS (dcrsrWriteValue addr) s))) := by
      unfold write_core_reg wait_for_core_register_transfer
      rw [hw]
      dsimp only
      rw [hwait]
      dsimp only
      rw [hdw]
    rw [hfull]
    refine congrArg _ (MIState.eq_of rfl ?_ ?_)
    · simp
      omega
    · simp [List.append_assoc]
  · intro k hk hok hnot hrdy hok2 hnot2
    have hw := mi_write32_ok Dcrsr.ADDRESS (dcrsrWriteValue addr) s hok
    have hwait := waitDhcsrLoop_ready Dhcsr.s_regrdy k 100
      (afterWrite Dcrsr.ADDRESS (dcrsrWriteValue addr) s) hk hnot hrdy
    have hok2b : ((pollAdv (k + 1) (afterWrite Dcrsr.ADDRESS (dcrsrWriteValue addr) s)).resp
        ((pollAdv (k + 1) (afterWrite Dcrsr.ADDRESS (dcrsrWriteValue addr) s)).count)).isOk = true := by
      show (s.resp (s.count + 1 + (k + 1))).isOk = true
      rw [show s.count + 1 + (k + 1) = s.count + k + 2 from by omega]
      exact hok2
    have hdw := mi_write32_ok Dcrdr.ADDRESS value _ hok2b
    have hnot2b : ∀ j, j < 100 → respNotReady Dhcsr.s_regrdy
        ((afterWrite Dcrdr.ADDRESS value
          (pollAdv (k + 1) (afterWrite Dcrsr.ADDRESS (dcrsrWriteValue addr) s))).resp
         ((afterWrite Dcrdr.ADDRESS value
          (pollAdv (k + 1) (afterWrite Dcrsr.ADDRESS (dcrsrWriteValue addr) s))).count + j)) = true := by
      intro j hj
      show respNotReady Dhcsr.s_regrdy (s.resp (s.count + 1 + (k + 1) + 1 + j)) = true
      rw [show s.count + 1 + (k + 1) + 1 + j = s.count + k + 3 + j from by omega]
      exact hnot2 j hj
    have hwait2 := waitDhcsrLoop_timeout Dhcsr.s_regrdy 100 _ hnot2b
    have hfull : write_core_reg addr value s =
        (.error .timeout, pollAdv 100 (afterWrite Dcrdr.ADDRESS value
          (pollAdv (k + 1) (afterWrite Dcrsr.ADDRESS (dcrsrWriteValue addr) s)))) := by
      unfold write_core_reg wait_for_core_register_transfer
      rw [hw]
      dsimp only
      rw [hwait]
      dsimp only
      rw [hdw]
      dsimp only
      rw [hwait2]
    rw [hfull]
    refine congrArg _ (MIState.eq_of rfl ?_ ?_)
    · simp
      omega
    · simp [List.append_assoc]

/-- C2: read_core_reg writes DCRSR with the direction bit clear and bits 4:0
equal to the register index, then polls the register-ready bit at most 100
times; it returns Timeout when the bit never sets, and the DCRDR value when
it does. -/
theorem read_core_reg_spec (addr : Nat) (s : MIState) :
    dcrsrReadValue addr = addr % 32 ∧
    (dcrsrReadValue addr).testBit 16 = false ∧
    ((s.resp s.count).isOk = true →
      (∀ j, j < 100 → respNotReady Dhcsr.s_regrdy (s.resp (s.count + 1 + j)) = true) →
      read_core_reg addr s =
        (.error .timeout,
          { s with count := s.count + 101,
                   log := s.log ++ [MIOp.write32 Dcrsr.ADDRESS (dcrsrReadValue addr)]
                     ++ pollLog 100 })) ∧
    (∀ k v, k < 100 → (s.resp s.count).isOk = true →
      (∀ j, j < k → respNotReady Dhcsr.s_regrdy (s.resp (s.count + 1 + j)) = true) →
      respReady Dhcsr.s_regrdy (s.resp (s.count + 1 + k)) = true →
      s.resp (s.count + k + 2) = .ok v →
      read_core_reg addr s =
        (.ok v,
          { s with count := s.count + k + 3,
                   log := s.log ++ [MIOp.write32 Dcrsr.ADDRESS (dcrsrReadValue addr)]
                     ++ pollLog (k + 1) ++ [MIOp.read32 Dcrdr.ADDRESS] })) := by
  refine ⟨dcrsrReadValue_eq addr, ?_, ?_, ?_⟩
  · rw [dcrsrReadValue_eq]
    exact Nat.testBit_lt_two_pow
      (Nat.lt_of_lt_of_le (Nat.mod_lt addr (by norm_num)) (by norm_num))
  · intro hok hnot
    have hw := mi_write32_ok Dcrsr.ADDRESS (dcrsrReadValue addr) s hok
    have hwait := waitDhcsrLoop_timeout Dhcsr.s_regrdy 100
      (afterWrite Dcrsr.ADDRESS (dcrsrReadValue addr) s) hnot
    have hfull : read_core_reg addr s =
        (.error .timeout, pollAdv 100 (afterWrite Dcrsr.ADDRESS (dcrsrReadValue addr) s)) := by
      unfold read_core_reg wait_for_core_register_transfer
      rw [hw]
      dsimp only
      rw [hwait]
    rw [hfull]
    refine congrArg _ (MIState.eq_of rfl ?_ ?_)
    · simp only [pollAdv_count, afterWrite_count]
      try omega
    · simp [List.append_assoc]
  · intro k v hk hok hnot hrdy hval
    have hw := mi_write32_ok Dcrsr.ADDRESS (dcrsrReadValue addr) s hok
    have hwait := waitDhcsrLoop_ready Dhcsr.s_regrdy k 100
      (afterWrite Dcrsr.ADDRESS (dcrsrReadValue addr) s) hk hnot hrdy
    have hval2 : (pollAdv (k + 1) (afterWrite Dcrsr.ADDRESS (dcrsrReadValue addr) s)).resp
        ((pollAdv (k + 1) (afterWrite Dcrsr.ADDRESS (dcrsrReadValue addr) s)).count) = .ok v := by
      show s.resp (s.count + 1 + (k + 1)) = .ok v
      rw [show s.count + 1 + (k + 1) = s.count + k + 2 from by omega]
      exact hval
    have hrd := mi_read32_ok Dcrdr.ADDRESS _ hval2
    have hfull : read_core_reg addr s =
        (.ok v, afterRead Dcrdr.ADDRESS
          (pollAdv (k + 1) (afterWrite Dcrsr.ADDRESS (dcrsrReadValue addr) s))) := by
      unfold read_core_reg wait_for_core_register_transfer
      rw [hw]
      dsimp only
      rw [hwait]
      dsimp only
      rw [hrd]
    rw [hfull]
    refine congrArg _ (MIState.eq_of rfl ?_ ?_)
    · simp
      omega
    · simp [List.append_assoc]

/-- C2 witness: with the select write ok, the poll ready at once and the
data register reading 0xDEAD, read_core_reg returns 0xDEAD. -/
theorem read_core_reg_spec_witness :
    read_core_reg 15 (scriptState c2Script) =
      (.ok 0xDEAD,
        { scriptState c2Script with count := 3,
                                    log := [MIOp.write32 Dcrsr.ADDRESS (dcrsrReadValue 15)]
                                      ++ pollLog 1 ++ [MIOp.read32 Dcrdr.ADDRESS] }) :=
  (read_core_reg_spec 15 (scriptState c2Script)).2.2.2 0 0xDEAD (by decide) (by decide)
    (by intro j hj; exact absurd hj (by omega)) (by decide) (by decide)

/-- C10: when a DHCSR poll read fails with a transport error, both bounded
wait loops abort on that iteration, return the wrapped transport error with
its code unchanged (never Timeout), and issue no further polls. -/
theorem poll_transport_aborts (s : MIState) :
    (∀ k c, k < 100 →
      (∀ j, j < k → respNotReady Dhcsr.s_regrdy (s.resp (s.count + j)) = true) →
      s.resp (s.count + k) = .err c →
      wait_for_core_register_transfer s = (.error (.memory c), pollAdv (k + 1) s)) ∧
    (∀ k c, k < 100 →
      (∀ j, j < k → respNotReady Dhcsr.s_halt (s.resp (s.count + j)) = true) →
      s.resp (s.count + k) = .err c →
      wait_for_core_halted s = (.error (.memory c), pollAdv (k + 1) s)) :=
  ⟨fun k c hk hnot herr => waitDhcsrLoop_err Dhcsr.s_regrdy k 100 s c hk hnot herr,
   fun k c hk hnot herr => waitDhcsrLoop_err Dhcsr.s_halt k 100 s c hk hnot herr⟩

/-- C10 witness: a not-ready read followed by transport error 9 makes both
loops stop after two reads with the error preserved. -/
theorem poll_transport_aborts_witness :
    wait_for_core_register_transfer (scriptState c10Script) =
      (.error (.memory 9), pollAdv 2 (scriptState c10Script)) ∧
    wait_for_core_halted (scriptState c10Script) =
      (.error (.memory 9), pollAdv 2 (scriptState c10Script)) :=
  ⟨(poll_transport_aborts (scriptState c10Script)).1 1 9 (by decide) (by decide) (by decide),
   (poll_transport_aborts (scriptState c10Script)).2 1 9 (by decide) (by decide) (by decide)⟩

/-- C3: the DHCSR words written by halt, step and run are 0xA05F0003
(halt, debugen), 0xA05F000D (step, no halt, debugen, maskints) and
0xA05F0000 (nothing), each carrying the 0xA05F key in bits 31:16, and each
operation issues its DHCSR write as its first memory-interface operation. -/
theorem execution_control_words (s : MIState) :
    (∃ l, (halt s).2.log = s.log ++ MIOp.write32 Dhcsr.ADDRESS haltDhcsrValue :: l) ∧
    (∃ l, (step s).2.log = s.log ++ MIOp.write32 Dhcsr.ADDRESS stepDhcsrValue :: l) ∧
    ((run s).2.log = s.log ++ [MIOp.write32 Dhcsr.ADDRESS runDhcsrValue]) ∧
    haltDhcsrValue = 0xA05F0003 ∧ stepDhcsrValue = 0xA05F000D ∧ runDhcsrValue = 0xA05F0000 ∧
    haltDhcsrValue.testBit 1 = true ∧ haltDhcsrValue.testBit 0 = true ∧
    stepDhcsrValue.testBit 2 = true ∧ stepDhcsrValue.testBit 1 = false ∧
    stepDhcsrValue.testBit 0 = true ∧ stepDhcsrValue.testBit 3 = true ∧
    runDhcsrValue.testBit 1 = false ∧ runDhcsrValue.testBit 0 = false ∧
    haltDhcsrValue >>> 16 = 0xA05F ∧ stepDhcsrValue >>> 16 = 0xA05F ∧
    runDhcsrValue >>> 16 = 0xA05F := by
  refine ⟨?_, ?_, ?_, by decide, by decide, by decide, by decide, by decide, by decide,
    by decide, by decide, by decide, by decide, by decide, by decide, by decide, by decide⟩
  · unfold halt
    rcases hw : mi_write32 Dhcsr.ADDRESS haltDhcsrValue s with ⟨r1, s1⟩
    have hs1 : s1 = afterWrite Dhcsr.ADDRESS haltDhcsrValue s := by
      have h := mi_write32_snd Dhcsr.ADDRESS haltDhcsrValue s
      rw [hw] at h
      exact h
    cases r1 with
    | error c =>
      refine ⟨[], ?_⟩
      show s1.log = _
      simp [hs1, afterWrite]
    | ok u =>
      dsimp only
      obtain ⟨l, hl⟩ := read_core_reg_log PC s1
      refine ⟨l, ?_⟩
      rw [hl, hs1]
      simp [afterWrite]
  · unfold step
    rcases hw : mi_write32 Dhcsr.ADDRESS stepDhcsrValue s with ⟨r1, s1⟩
    have hs1 : s1 = afterWrite Dhcsr.ADDRESS stepDhcsrValue s := by
      have h := mi_write32_snd Dhcsr.ADDRESS stepDhcsrValue s
      rw [hw] at h
      exact h
    cases r1 with
    | error c =>
      refine ⟨[], ?_⟩
      show s1.log = _
      simp [hs1, afterWrite]
    | ok u =>
      dsimp only
      rcases hwt : wait_for_core_halted s1 with ⟨r2, s2⟩
      obtain ⟨k, hk100, hk⟩ := wait_halted_state_shape s1
      rw [hwt] at hk
      have hs2 : s2 = pollAdv k s1 := hk
      cases r2 with
      | error e =>
        refine ⟨pollLog k, ?_⟩
        show s2.log = _
        simp [hs2, hs1, afterWrite]
      | ok u2 =>
        dsimp only
        obtain ⟨l, hl⟩ := read_core_reg_log PC s2
        refine ⟨pollLog k ++ l, ?_⟩
        rw [hl, hs2, hs1]
        simp [afterWrite]
  · unfold run
    rcases hw : mi_write32 Dhcsr.ADDRESS runDhcsrValue s with ⟨r1, s1⟩
    have hs1 : s1 = afterWrite Dhcsr.ADDRESS runDhcsrValue s := by
      have h := mi_write32_snd Dhcsr.ADDRESS runDhcsrValue s
      rw [hw] at h
      exact h
    cases r1 with
    | error c =>
      show s1.log = _
      simp [hs1, afterWrite]
    | ok u =>
      show s1.log = _
      simp [hs1, afterWrite]

/-- C1 witness: concrete scripts exercise the success shape, the
data-write short-circuit, and the second-poll timeout. -/
theorem write_core_reg_protocol_witness :
    (∃ k₁ k₂, 1 ≤ k₁ ∧ k₁ ≤ 100 ∧ 1 ≤ k₂ ∧ k₂ ≤ 100 ∧
      (write_core_reg 5 77 (scriptState c1ScriptC)).2.log =
        (scriptState c1ScriptC).log ++ [MIOp.write32 Dcrsr.ADDRESS (dcrsrWriteValue 5)]
          ++ pollLog k₁ ++ [MIOp.write32 Dcrdr.ADDRESS 77] ++ pollLog k₂) ∧
    write_core_reg 5 77 (scriptState c1ScriptA) =
      (.error (.memory 7),
        { scriptState c1ScriptA with
            count := 3,
            log := [MIOp.write32 Dcrsr.ADDRESS (dcrsrWriteValue 5)] ++ pollLog 1
              ++ [MIOp.write32 Dcrdr.ADDRESS 77] }) ∧
    write_core_reg 5 77 (scriptState c1ScriptB) =
      (.error .timeout,
        { scriptState c1ScriptB with
            count := 103,
            log := [MIOp.write32 Dcrsr.ADDRESS (dcrsrWriteValue 5)] ++ pollLog 1
              ++ [MIOp.write32 Dcrdr.ADDRESS 77] ++ pollLog 100 }) := by
  refine ⟨(write_core_reg_protocol 5 77 (scriptState c1ScriptC)).1 (by rfl), ?_, ?_⟩
  · exact (write_core_reg_protocol 5 77 (scriptState c1ScriptA)).2.1 0 7 (by decide) (by decide)
      (by intro j hj; exact absurd hj (by omega)) (by decide) (by decide)
  · exact (write_core_reg_protocol 5 77 (scriptState c1ScriptB)).2.2 0 (by decide) (by decide)
      (by intro j hj; exact absurd hj (by omega)) (by decide) (by decide) (by decide)

theorem or_ones_mod (x : Nat) : (x ||| 0xFFFFFF) % 2 ^ 24 = 0xFFFFFF := by
  apply Nat.eq_of_testBit_eq
  intro i
  rw [Nat.testBit_mod_two_pow, Nat.testBit_or]
  rcases Nat.lt_or_ge i 24 with hi | hi
  · have hm : (0xFFFFFF : Nat).testBit i = true := by
      rw [show (0xFFFFFF : Nat) = 2 ^ 24 - 1 from by norm_num, Nat.testBit_two_pow_sub_one]
      simpa using hi
    rw [hm]
    simp [hi]
  · have hm : (0xFFFFFF : Nat).testBit i = false := by
      rw [show (0xFFFFFF : Nat) = 2 ^ 24 - 1 from by norm_num, Nat.testBit_two_pow_sub_one]
      simpa using Nat.not_lt_of_ge hi
    rw [hm]
    simp
    omega

/-- C5: the comparator word set_breakpoint builds has match-mode bits 31:30
equal to 0b11, enable bit 0 set, and comparison field bits 28:2 holding the
low 27 bits of (addr >>> 2) ||| 0x00FFFFFF; the word is written to the
Breakpoint Control Register address 0xE000_2000 (not the comparator
address 0xE000_2008), followed by a bounded (at most 100 reads) poll of the
halted bit. -/
theorem set_breakpoint_spec (addr : Nat) (s : MIState) :
    (bpCompValue addr) >>> 30 = 3 ∧
    (bpCompValue addr).testBit 0 = true ∧
    ((bpCompValue addr) >>> 2) % 2 ^ 27 = ((addr >>> 2) ||| 0x00FFFFFF) % 2 ^ 27 ∧
    BpCtrl.ADDRESS = 0xE0002000 ∧ BpCompx.ADDRESS = 0xE0002008 ∧
    ∃ k, k ≤ 100 ∧
      (set_breakpoint addr s).2 = pollAdv k (afterWrite BpCtrl.ADDRESS (bpCompValue addr) s) := by
  have hz : ((addr >>> 2) ||| 0xFFFFFF) % 2 ^ 27 < 2 ^ 27 := Nat.mod_lt _ (by norm_num)
  refine ⟨?_, ?_, ?_, by decide, by decide, ?_⟩
  · rw [bpCompValue_eq, Nat.shiftRight_eq_div_pow]
    omega
  · rw [bpCompValue_eq, Nat.testBit_zero]
    simp only [decide_eq_true_eq]
    omega
  · rw [bpCompValue_eq, Nat.shiftRight_eq_div_pow]
    omega
  · unfold set_breakpoint
    rcases hw : mi_write32 BpCtrl.ADDRESS (bpCompValue addr) s with ⟨r1, s1⟩
    have hs1 : s1 = afterWrite BpCtrl.ADDRESS (bpCompValue addr) s := by
      have h := mi_write32_snd BpCtrl.ADDRESS (bpCompValue addr) s
      rw [hw] at h
      exact h
    cases r1 with
    | error c =>
      refine ⟨0, by omega, ?_⟩
      rw [pollAdv_zero]
      exact hs1
    | ok u =>
      dsimp only
      obtain ⟨k, hk, hsh⟩ := wait_halted_state_shape s1
      exact ⟨k, hk, by rw [hsh, hs1]⟩

/-- C9: bits 25:2 of the comparator word are always all ones, and the word
(hence the entire memory-interface behaviour of set_breakpoint) depends only
on bits 28:26 of the address. -/
theorem set_breakpoint_collapse (a1 a2 : Nat) (s : MIState) :
    ((bpCompValue a1) >>> 2) % 2 ^ 24 = 0xFFFFFF ∧
    ((a1 >>> 26) % 2 ^ 3 = (a2 >>> 26) % 2 ^ 3 →
      bpCompValue a1 = bpCompValue a2 ∧ set_breakpoint a1 s = set_breakpoint a2 s) := by
  constructor
  · have hz : ((a1 >>> 2) ||| 0xFFFFFF) % 2 ^ 27 < 2 ^ 27 := Nat.mod_lt _ (by norm_num)
    have h24 : (((a1 >>> 2) ||| 0xFFFFFF) % 2 ^ 27) % 2 ^ 24 = 0xFFFFFF := by
      rw [Nat.mod_mod_of_dvd _ (by norm_num : (2:Nat) ^ 24 ∣ 2 ^ 27), or_ones_mod]
    rw [bpCompValue_eq, Nat.shiftRight_eq_div_pow]
    omega
  · intro h
    have hzeq : ((a1 >>> 2) ||| 0xFFFFFF) % 2 ^ 27 = ((a2 >>> 2) ||| 0xFFFFFF) % 2 ^ 27 := by
      apply Nat.eq_of_testBit_eq
      intro i
      rw [Nat.testBit_mod_two_pow, Nat.testBit_mod_two_pow, Nat.testBit_or, Nat.testBit_or]
      rcases Nat.lt_or_ge i 24 with hi | hi
      · have hm : (0xFFFFFF : Nat).testBit i = true := by
          rw [show (0xFFFFFF : Nat) = 2 ^ 24 - 1 from by norm_num, Nat.testBit_two_pow_sub_one]
          simpa using hi
        rw [hm]
        simp
      · rcases Nat.lt_or_ge i 27 with hi2 | hi2
        · have hm : (0xFFFFFF : Nat).testBit i = false := by
            rw [show (0xFFFFFF : Nat) = 2 ^ 24 - 1 from by norm_num,
              Nat.testBit_two_pow_sub_one]
            simpa using Nat.not_lt_of_ge hi
          have hb : (a1 >>> 2).testBit i = (a2 >>> 2).testBit i := by
            rw [Nat.testBit_shiftRight, Nat.testBit_shiftRight]
            have hj := congrArg (fun t => t.testBit (i - 24)) h
            simp only [Nat.testBit_mod_two_pow, Nat.testBit_shiftRight] at hj
            have hd : decide (i - 24 < 3) = true := by
              simp
              omega
            rw [hd] at hj
            simp only [Bool.true_and] at hj
            rw [show 2 + i = 26 + (i - 24) from by omega]
            exact hj
          rw [hm, hb]
        · have hd : decide (i < 27) = false := by
            simp
            omega
          rw [hd]
          simp
    have hv : bpCompValue a1 = bpCompValue a2 := by
      rw [bpCompValue_eq, bpCompValue_eq, hzeq]
    refine ⟨hv, ?_⟩
    unfold set_breakpoint
    rw [hv]

/-- C9 witness: two addresses agreeing on bits 28:26 yield the same
comparator word and the same behaviour. -/
theorem set_breakpoint_collapse_witness :
    bpCompValue 0x08001004 = bpCompValue 0x08001008 ∧
    set_breakpoint 0x08001004 (scriptState okReadyScript) =
      set_breakpoint 0x08001008 (scriptState okReadyScript) :=
  (set_breakpoint_collapse 0x08001004 0x08001008 (scriptState okReadyScript)).2 (by decide)

/-- C7: on any 32-bit word, enable_write ORs 0xA05F into bits 31:16, keeps
bits 15:0 unchanged, stays within 32 bits, and is idempotent. -/
theorem enable_write_spec (v : Nat) (h : v < 2 ^ 32) :
    Dhcsr.enable_write v < 2 ^ 32 ∧
    (Dhcsr.enable_write v) >>> 16 = (v >>> 16) ||| 0xA05F ∧
    (Dhcsr.enable_write v) % 2 ^ 16 = v % 2 ^ 16 ∧
    Dhcsr.enable_write (Dhcsr.enable_write v) = Dhcsr.enable_write v := by
  refine ⟨?_, ?_, ?_, ?_⟩
  · exact Nat.or_lt_two_pow h (by rw [Nat.shiftLeft_eq]; norm_num)
  · unfold Dhcsr.enable_write
    apply Nat.eq_of_testBit_eq
    intro i
    rw [Nat.testBit_shiftRight, Nat.testBit_or, Nat.testBit_or, Nat.testBit_shiftRight,
      Nat.testBit_shiftLeft]
    have h1 : decide (16 + i ≥ 16) = true := by simp
    rw [h1, Bool.true_and, show 16 + i - 16 = i from by omega]
  · unfold Dhcsr.enable_write
    apply Nat.eq_of_testBit_eq
    intro i
    rw [Nat.testBit_mod_two_pow, Nat.testBit_mod_two_pow, Nat.testBit_or, Nat.testBit_shiftLeft]
    rcases Nat.lt_or_ge i 16 with hi | hi
    · have h1 : decide (i ≥ 16) = false := by
        simp
        omega
      rw [h1]
      simp
    · have h1 : decide (i < 16) = false := by
        simp
        omega
      rw [h1]
      simp
  · unfold Dhcsr.enable_write
    rw [Nat.or_assoc, Nat.or_self]

/-- C7 witness: the three properties evaluated at the word 0x12345678. -/
theorem enable_write_spec_witness :
    Dhcsr.enable_write 0x12345678 < 2 ^ 32 ∧
    (Dhcsr.enable_write 0x12345678) >>> 16 = (0x12345678 >>> 16) ||| 0xA05F ∧
    (Dhcsr.enable_write 0x12345678) % 2 ^ 16 = 0x12345678 % 2 ^ 16 ∧
    Dhcsr.enable_write (Dhcsr.enable_write 0x12345678) = Dhcsr.enable_write 0x12345678 :=
  enable_write_spec 0x12345678 (by norm_num)

/-- C8: per-breakpoint enable and disable panic unconditionally (the Rust
unimplemented macro): they never produce a return value, succeed or not,
and they leave the memory interface untouched. -/
theorem breakpoint_toggle_unimplemented (addr : Nat) (s : MIState) :
    enable_breakpoint addr s = (.panicked "not implemented", s) ∧
    disable_breakpoint addr s = (.panicked "not implemented", s) ∧
    (enable_breakpoint addr s).2.log = s.log ∧
    (disable_breakpoint addr s).2.log = s.log :=
  ⟨rfl, rfl, rfl, rfl⟩

/-- C4: get_available_breakpoint_units returns the raw Breakpoint Control
Register word, not its comparator-count field: with a simulated register
value 0x40 whose count field is 4, it returns 0x40, not 4. -/
theorem get_available_breakpoint_units_raw :
    BpCtrl.numcode 0x40 = 4 ∧
    (get_available_breakpoint_units (scriptState c4Script)).1 = .ok 0x40 ∧
    (get_available_breakpoint_units (scriptState c4Script)).1 ≠ .ok 4 := by
  refine ⟨by decide, by rfl, ?_⟩
  intro hcontra
  have h1 : (get_available_breakpoint_units (scriptState c4Script)).1 = .ok 0x40 := by rfl
  rw [h1] at hcontra
  simp at hcontra

/-- C6 counterexample: the instruction array of the flash algorithm has 92
words, not 87. -/
theorem get_flash_algorithm_not_87 :
    get_flash_algorithm.instructions.length = 92 ∧
    get_flash_algorithm.instructions.length ≠ 87 := by
  refine ⟨by rfl, by decide⟩

/-- C6 (amended): the flash algorithm descriptor is the constant record
with a 92-word instruction sequence, load address 0x2000_0000, the listed
entry points, static base load+0x16C, stack top load+0x800, data region
0x2000_2000, page buffers 0x2000_3000 and 0x2000_4000, minimum program
length 2, and a supported analyzer at 0x2000_2000. -/
theorem get_flash_algorithm_spec :
    get_flash_algorithm.load_address = 0x20000000 ∧
    get_flash_algorithm.instructions.length = 92 ∧
    get_flash_algorithm.pc_init = some 0x20000047 ∧
    get_flash_algorithm.pc_uninit = some 0x20000075 ∧
    get_flash_algorithm.pc_program_page = 0x200000FB ∧
    get_flash_algorithm.pc_erase_sector = 0x200000AF ∧
    get_flash_algorithm.pc_erase_all = some 0x20000083 ∧
    get_flash_algorithm.static_base = get_flash_algorithm.load_address + 0x16C ∧
    get_flash_algorithm.begin_stack = get_flash_algorithm.load_address + 0x800 ∧
    get_flash_algorithm.begin_data = 0x20002000 ∧
    get_flash_algorithm.page_buffers = [0x20003000, 0x20004000] ∧
    get_flash_algorithm.min_program_length = 2 ∧
    get_flash_algorithm.analyzer_supported = true ∧
    get_flash_algorithm.analyzer_address = 0x20002000 :=
  ⟨rfl, rfl, rfl, rfl, rfl, rfl, rfl, rfl, rfl, rfl, rfl, rfl, rfl, rfl⟩
